import Mathlib

/-!
# Task-dispatch coordinator: a shallow embedding with verified properties

This file embeds the two Python services of the repository — the dispatch
API (`src/api/main.py`) and the local worker (`src/worker/worker.py`) — as
executable Lean definitions and proves properties of the embedded code.

Modelling conventions:
* Wall-clock readings (`time.time()`) are opaque ticks, passed explicitly as
  `Nat` parameters; where the code takes several readings, each reading is a
  separate parameter.
* The worker registry (a Python `dict` keyed by worker id, insertion
  ordered) is an association list `List (String × Worker)`; `dict` update in
  place is replace-at-key, fresh insertion is append.
* Python's `sorted` is a stable sort; it is modelled by `List.insertionSort`
  (also stable), which agrees with every stable sort on the same key.
* String primitives (`strip`, trailing-slash removal, `startswith`,
  `replace`) are modelled on the character list of the string so that they
  compute by kernel reduction.
* Remote HTTP calls are modelled by an explicit outcome environment: for
  each worker and payload count, the environment says whether `httpx`
  returned a response (status code plus parsed JSON body) or raised.
* JSON bodies are modelled just as finely as the dispatcher inspects them:
  a parse failure (`None`), a JSON object with its optional `error` and
  `created` fields, or some non-object JSON value.
-/

namespace TaskDispatch

/-! ## String helpers (char-list models of the Python string operations) -/

/-- Python `str.strip()`: drop leading and trailing whitespace. -/
def stripChars (cs : List Char) : List Char :=
  ((cs.dropWhile Char.isWhitespace).reverse.dropWhile Char.isWhitespace).reverse

/-- Python `str.strip()` on a `String`. -/
def pyStrip (s : String) : String :=
  String.mk (stripChars s.data)

/-- Python `str.startswith(p)`. -/
def pyStartsWith (s p : String) : Bool :=
  p.data.isPrefixOf s.data

/-- `_normalize_url` (main.py:32): strip, then drop every trailing `/`. -/
def _normalize_url (url : String) : String :=
  String.mk (((stripChars url.data).reverse.dropWhile (· == '/')).reverse)

/-! ## Data model -/

/-- The `Worker` dataclass (main.py:14). Timestamps are opaque clock ticks. -/
structure Worker where
  id : String
  label : String
  url : String
  registered_at : Nat
  last_seen_at : Nat
  source : String
deriving Repr, DecidableEq

/-- The mutable module state of main.py: the `workers` dict (insertion-ordered,
keyed by worker id) and the `task_seq` counter. -/
structure ApiState where
  workers : List (String × Worker)
  task_seq : Nat
deriving Repr, DecidableEq

/-- `workers.get(wid)`: lookup in the insertion-ordered dict. -/
def dictGet (d : List (String × Worker)) (k : String) : Option Worker :=
  (d.find? (fun p => p.1 == k)).map Prod.snd

/-- `workers[wid] = w`: dict update — replace in place if the key is present
(dict order is preserved), otherwise append. -/
def dictSet (d : List (String × Worker)) (k : String) (w : Worker) :
    List (String × Worker) :=
  if (d.find? (fun p => p.1 == k)).isSome then
    d.map (fun p => if p.1 == k then (k, w) else p)
  else
    d ++ [(k, w)]

/-- `_get_workers_list` (main.py:86): `sorted(workers.values(), key=registered_at)`.
Python's `sorted` is stable; `List.insertionSort` is the stable sort on the
same key. -/
def _get_workers_list (d : List (String × Worker)) : List Worker :=
  List.insertionSort (fun a b => a.registered_at ≤ b.registered_at) (d.map Prod.snd)

/-! ## AllocationPlanner -/

/-- `_distribute_evenly` (main.py:90): `base = total // n`, `rem = total % n`,
worker `i` receives `base + 1` if `i < rem` else `base`. -/
def _distribute_evenly (total : Nat) (ws : List Worker) : List (Worker × Nat) :=
  let n := ws.length
  let base := total / n
  let rem := total % n
  ws.enum.map (fun iw => (iw.2, base + if iw.1 < rem then 1 else 0))

lemma enumFrom_map_pair (g : Nat → Nat) (ws : List Worker) :
    ∀ k, (List.enumFrom k ws).map (fun iw => g iw.1)
      = (List.range ws.length).map (fun i => g (k + i)) := by
  induction ws with
  | nil => intro k; rfl
  | cons w ws ih =>
    intro k
    simp only [List.enumFrom, List.map_cons, List.length_cons,
      List.range_succ_eq_map, List.map_map]
    refine congrArg (fun t => g k :: t) ?_
    rw [ih (k + 1)]
    refine List.map_congr_left fun i _ => ?_
    simp only [Function.comp_apply]
    exact congrArg g (by omega)

lemma range_map_counts (base : Nat) : ∀ (n rem : Nat),
    (List.range n).map (fun i => base + if i < rem then 1 else 0)
      = List.replicate (min rem n) (base + 1) ++ List.replicate (n - rem) base := by
  intro n
  induction n with
  | zero => intro rem; simp
  | succ n ih =>
    intro rem
    rw [List.range_succ_eq_map, List.map_cons, List.map_map]
    cases rem with
    | zero =>
      have hz : (List.range n).map ((fun i => base + if i < 0 then 1 else 0) ∘ Nat.succ)
          = (List.range n).map (fun i => base + if i < 0 then 1 else 0) :=
        List.map_congr_left fun i _ => by simp
      rw [hz, ih 0]
      simp [List.replicate_succ]
    | succ r =>
      have hs : (List.range n).map ((fun i => base + if i < r + 1 then 1 else 0) ∘ Nat.succ)
          = (List.range n).map (fun i => base + if i < r then 1 else 0) :=
        List.map_congr_left fun i _ => by
          simp only [Function.comp_apply, Nat.succ_lt_succ_iff]
      rw [hs, ih r]
      simp only [Nat.succ_min_succ, Nat.succ_sub_succ]
      rw [List.replicate_succ, List.cons_append]
      simp

lemma distribute_map_fst (total : Nat) (ws : List Worker) :
    (_distribute_evenly total ws).map Prod.fst = ws := by
  unfold _distribute_evenly
  rw [List.map_map]
  exact List.enum_map_snd ws

lemma distribute_map_snd (total : Nat) (ws : List Worker) (h : ws ≠ []) :
    (_distribute_evenly total ws).map Prod.snd
      = List.replicate (total % ws.length) (total / ws.length + 1)
        ++ List.replicate (ws.length - total % ws.length) (total / ws.length) := by
  have hn : 0 < ws.length := List.length_pos.mpr h
  have hrem : total % ws.length < ws.length := Nat.mod_lt _ hn
  unfold _distribute_evenly
  rw [List.map_map]
  have : (Prod.snd ∘ fun iw : Nat × Worker =>
      (iw.2, total / ws.length + if iw.1 < total % ws.length then 1 else 0))
      = fun iw : Nat × Worker =>
        total / ws.length + if iw.1 < total % ws.length then 1 else 0 := rfl
  rw [this]
  have he := enumFrom_map_pair
    (fun i => total / ws.length + if i < total % ws.length then 1 else 0) ws 0
  simp only [List.enum] at he ⊢
  rw [he]
  have hsimp : (List.range ws.length).map
      (fun i => total / ws.length + if 0 + i < total % ws.length then 1 else 0)
      = (List.range ws.length).map
      (fun i => total / ws.length + if i < total % ws.length then 1 else 0) :=
    List.map_congr_left fun i _ => by simp
  rw [hsimp, range_map_counts]
  rw [Nat.min_eq_left (Nat.le_of_lt hrem)]

/-- C1: for every `total ≥ 0` and non-empty worker list of length `N`,
`_distribute_evenly` returns exactly `N` pairs carrying the workers in input
order, the counts sum to `total`, each count is `base` or `base + 1` with
`base = total / N`, and exactly `total % N` workers — the first ones in input
order — receive `base + 1`. -/
theorem distribute_evenly_spec (total : Nat) (ws : List Worker) (h : ws ≠ []) :
    (_distribute_evenly total ws).length = ws.length ∧
    (_distribute_evenly total ws).map Prod.fst = ws ∧
    ((_distribute_evenly total ws).map Prod.snd).sum = total ∧
    (∀ p ∈ _distribute_evenly total ws,
      p.2 = total / ws.length ∨ p.2 = total / ws.length + 1) ∧
    ((_distribute_evenly total ws).map Prod.snd).take (total % ws.length)
      = List.replicate (total % ws.length) (total / ws.length + 1) ∧
    ((_distribute_evenly total ws).map Prod.snd).drop (total % ws.length)
      = List.replicate (ws.length - total % ws.length) (total / ws.length) := by
  have hn : 0 < ws.length := List.length_pos.mpr h
  have hrem : total % ws.length < ws.length := Nat.mod_lt _ hn
  have hsnd := distribute_map_snd total ws h
  refine ⟨?_, distribute_map_fst total ws, ?_, ?_, ?_, ?_⟩
  · unfold _distribute_evenly
    simp
  · obtain ⟨d, hd⟩ := Nat.le.dest (Nat.le_of_lt hrem)
    have hsub : ws.length - total % ws.length = d := by omega
    have hdiv := Nat.div_add_mod total ws.length
    rw [hsnd, List.sum_append, List.sum_replicate, List.sum_replicate,
      smul_eq_mul, smul_eq_mul, hsub]
    calc total % ws.length * (total / ws.length + 1) + d * (total / ws.length)
        = (total % ws.length + d) * (total / ws.length) + total % ws.length := by ring
      _ = ws.length * (total / ws.length) + total % ws.length := by rw [hd]
      _ = total := hdiv
  · intro p hp
    have hmem : p.2 ∈ (_distribute_evenly total ws).map Prod.snd :=
      List.mem_map_of_mem Prod.snd hp
    rw [hsnd] at hmem
    rcases List.mem_append.mp hmem with hc | hc
    · exact Or.inr (List.eq_of_mem_replicate hc)
    · exact Or.inl (List.eq_of_mem_replicate hc)
  · rw [hsnd]
    have := List.take_left (List.replicate (total % ws.length) (total / ws.length + 1))
      (List.replicate (ws.length - total % ws.length) (total / ws.length))
    rwa [List.length_replicate] at this
  · rw [hsnd]
    have := List.drop_left (List.replicate (total % ws.length) (total / ws.length + 1))
      (List.replicate (ws.length - total % ws.length) (total / ws.length))
    rwa [List.length_replicate] at this

/-- Sample workers used by the concrete witnesses below. -/
def sampleWorker1 : Worker :=
  ⟨"w1", "lab1", "http://a.example", 1, 1, "env"⟩

def sampleWorker2 : Worker :=
  ⟨"w2", "lab2", "http://b.example", 2, 2, "register"⟩

def sampleWorker3 : Worker :=
  ⟨"w3", "lab3", "http://c.example", 3, 3, "register"⟩

/-- C1 witness: 10 units over 3 workers gives counts `[4, 3, 3]`. -/
theorem distribute_evenly_spec_witness :
    (_distribute_evenly 10 [sampleWorker1, sampleWorker2, sampleWorker3]).length = 3 ∧
    ((_distribute_evenly 10 [sampleWorker1, sampleWorker2, sampleWorker3]).map
      Prod.snd).sum = 10 :=
  have hspec := distribute_evenly_spec 10 [sampleWorker1, sampleWorker2, sampleWorker3]
    (by decide)
  ⟨hspec.1, hspec.2.2.1⟩

/-! ## Registration (`api_register_worker`, main.py:152) -/

/-- The `RegisterWorkerIn` request model (main.py:101). -/
structure RegisterIn where
  url : String
  label : String := "worker"
  id : Option String := none
deriving Repr, DecidableEq

/-- An `HTTPException` raised by a handler. -/
structure HTTPError where
  status : Nat
  detail : String
deriving Repr, DecidableEq

deriving instance DecidableEq for Except

/-- The worker id chosen at main.py:160:
`(body.id or "").strip() or f"reg-{int(_now()*1000)}"`; `nowMs` is the
millisecond clock reading taken on that line. -/
def register_wid (bodyId : Option String) (nowMs : Nat) : String :=
  let s := pyStrip (bodyId.getD "")
  if s = "" then "reg-" ++ Nat.repr nowMs else s

/-- The label chosen at main.py:161: `(body.label or "worker").strip() or "worker"`. -/
def register_label (bodyLabel : String) : String :=
  let l0 := if bodyLabel = "" then "worker" else bodyLabel
  let l1 := pyStrip l0
  if l1 = "" then "worker" else l1

/-- `api_register_worker` (main.py:152). `nowMs` is the millisecond reading
taken while generating an id (line 160); `now` the reading taken for the
timestamps (line 162). Returns the module state after the call together with
the response or raised `HTTPException`. -/
def api_register_worker (st : ApiState) (body : RegisterIn) (nowMs now : Nat) :
    ApiState × Except HTTPError Worker :=
  let url := _normalize_url body.url
  if url = "" then (st, Except.error ⟨400, "缺少 url"⟩)
  else if !(pyStartsWith url "http://" || pyStartsWith url "https://") then
    (st, Except.error ⟨400, "url 必须以 http(s):// 开头"⟩)
  else
    let wid := register_wid body.id nowMs
    let label := register_label body.label
    let existing := dictGet st.workers wid
    let w : Worker :=
      { id := wid
        label := label
        url := url
        registered_at := match existing with
          | some e => e.registered_at
          | none => now
        last_seen_at := now
        source := "register" }
    ({ st with workers := dictSet st.workers wid w }, Except.ok w)

lemma find?_replace (d : List (String × Worker)) (k : String) (w : Worker) :
    (d.map (fun p => if p.1 == k then (k, w) else p)).find? (fun p => p.1 == k)
      = if (d.find? (fun p => p.1 == k)).isSome then some (k, w) else none := by
  induction d with
  | nil => rfl
  | cons p d ih =>
    rw [List.map_cons]
    simp only [List.find?_cons]
    by_cases h : p.1 = k
    · have hb : (p.1 == k) = true := beq_iff_eq.mpr h
      rw [if_pos hb]
      simp [hb]
    · have hb : (p.1 == k) = false := beq_eq_false_iff_ne.mpr h
      rw [if_neg (by simp [hb])]
      simp only [hb]
      exact ih

lemma find?_append_right (d : List (String × Worker)) (k : String) (w : Worker)
    (h : d.find? (fun p => p.1 == k) = none) :
    (d ++ [(k, w)]).find? (fun p => p.1 == k) = some (k, w) := by
  induction d with
  | nil => simp [List.find?_cons]
  | cons p d ih =>
    simp only [List.find?_cons] at h ⊢
    cases hb : (p.1 == k) with
    | true => rw [hb] at h; simp at h
    | false =>
      rw [hb] at h
      simp only [List.cons_append]
      rw [List.find?_cons]
      simp only [hb]
      exact ih h

/-- Updating a dict at a key makes that key map to the new value. -/
lemma dictGet_dictSet_self (d : List (String × Worker)) (k : String) (w : Worker) :
    dictGet (dictSet d k w) k = some w := by
  unfold dictGet dictSet
  by_cases h : (d.find? (fun p => p.1 == k)).isSome
  · rw [if_pos h, find?_replace, if_pos h, Option.map_some']
  · have hnone := Option.not_isSome_iff_eq_none.mp h
    rw [if_neg h, find?_append_right d k w hnone, Option.map_some']

/-- Updating a dict at a key present in it keeps the key list unchanged;
updating at a fresh key appends that key. -/
lemma keys_dictSet (d : List (String × Worker)) (k : String) (w : Worker) :
    (dictSet d k w).map Prod.fst
      = if (d.find? (fun p => p.1 == k)).isSome then d.map Prod.fst
        else d.map Prod.fst ++ [k] := by
  unfold dictSet
  by_cases h : (d.find? (fun p => p.1 == k)).isSome
  · simp only [h, if_true, List.map_map]
    refine List.map_congr_left fun p _ => ?_
    by_cases hp : p.1 = k
    · simp [hp]
    · simp [hp]
  · simp [h]

/-- Dict update preserves key uniqueness. -/
lemma nodup_keys_dictSet (d : List (String × Worker)) (k : String) (w : Worker)
    (hnd : (d.map Prod.fst).Nodup) : ((dictSet d k w).map Prod.fst).Nodup := by
  rw [keys_dictSet]
  by_cases h : (d.find? (fun p => p.1 == k)).isSome
  · simpa [h] using hnd
  · have hnone := Option.not_isSome_iff_eq_none.mp h
    have hk : k ∉ d.map Prod.fst := by
      intro hmem
      obtain ⟨p, hp, hpk⟩ := List.mem_map.mp hmem
      have := List.find?_eq_none.mp hnone p hp
      simp [hpk] at this
    simp only [h, Bool.false_eq_true, if_false]
    rw [List.nodup_append]
    exact ⟨hnd, List.nodup_singleton k, by
      intro a ha hb
      simp only [List.mem_singleton] at hb
      exact hk (hb ▸ ha)⟩

/-- C4: a registration that succeeds stores, under the computed id, a worker
carrying the new label, normalized endpoint and `lastSeenAt = now`; it
preserves the original `registeredAt` when the id already existed and sets it
to `now` for a fresh id; and the registry's ids stay unique. -/
theorem register_upsert_spec (st : ApiState) (body : RegisterIn) (nowMs now : Nat)
    (st' : ApiState) (w : Worker)
    (hnd : (st.workers.map Prod.fst).Nodup)
    (h : api_register_worker st body nowMs now = (st', Except.ok w)) :
    dictGet st'.workers (register_wid body.id nowMs) = some w ∧
    w.id = register_wid body.id nowMs ∧
    w.label = register_label body.label ∧
    w.url = _normalize_url body.url ∧
    w.last_seen_at = now ∧
    w.source = "register" ∧
    (∀ e, dictGet st.workers (register_wid body.id nowMs) = some e →
      w.registered_at = e.registered_at) ∧
    (dictGet st.workers (register_wid body.id nowMs) = none →
      w.registered_at = now) ∧
    (st'.workers.map Prod.fst).Nodup := by
  simp only [api_register_worker] at h
  split at h
  · simp at h
  · split at h
    · simp at h
    · simp only [Prod.mk.injEq, Except.ok.injEq] at h
      obtain ⟨hst, hw⟩ := h
      subst hst
      subst hw
      refine ⟨dictGet_dictSet_self _ _ _, rfl, rfl, rfl, rfl, rfl, ?_, ?_, ?_⟩
      · intro e he
        simp only [he]
      · intro he
        simp only [he]
      · exact nodup_keys_dictSet _ _ _ hnd

/-- Concrete registration input used by the witnesses: re-registers id `w1`. -/
def regBody : RegisterIn :=
  ⟨"http://new.example/", "newlab", some "w1"⟩

/-- Registry holding `sampleWorker1` under id `w1`. -/
def regStateBefore : ApiState :=
  ⟨[("w1", sampleWorker1)], 0⟩

/-- C4 witness: re-registering id `w1` replaces endpoint/label, stamps
`lastSeenAt = 100`, and keeps the original `registeredAt = 1`. -/
theorem register_upsert_spec_witness :
    dictGet (api_register_worker regStateBefore regBody 99 100).1.workers
        (register_wid regBody.id 99)
      = some { id := "w1", label := "newlab", url := "http://new.example",
               registered_at := 1, last_seen_at := 100, source := "register" } ∧
    { id := "w1", label := "newlab", url := "http://new.example",
      registered_at := 1, last_seen_at := 100, source := "register" : Worker
      }.registered_at = sampleWorker1.registered_at :=
  have hspec := register_upsert_spec regStateBefore regBody 99 100
    (api_register_worker regStateBefore regBody 99 100).1
    { id := "w1", label := "newlab", url := "http://new.example",
      registered_at := 1, last_seen_at := 100, source := "register" }
    (by decide) (by decide)
  ⟨hspec.1, hspec.2.2.2.2.2.2.1 sampleWorker1 (by decide)⟩

/-- C6: a registration whose endpoint normalizes to the empty string, or does
not begin with `http://` or `https://`, fails with a 400 client error and
leaves the registry (and the whole module state) unchanged. -/
theorem register_invalid_url_rejected (st : ApiState) (body : RegisterIn)
    (nowMs now : Nat)
    (h : _normalize_url body.url = "" ∨
      (pyStartsWith (_normalize_url body.url) "http://" = false ∧
       pyStartsWith (_normalize_url body.url) "https://" = false)) :
    (api_register_worker st body nowMs now).1 = st ∧
    ∃ err : HTTPError, (api_register_worker st body nowMs now).2 = Except.error err
      ∧ err.status = 400 := by
  by_cases hu : _normalize_url body.url = ""
  · have heq : api_register_worker st body nowMs now
        = (st, Except.error ⟨400, "缺少 url"⟩) := by
      unfold api_register_worker
      rw [if_pos hu]
    rw [heq]
    exact ⟨rfl, ⟨400, "缺少 url"⟩, rfl, rfl⟩
  · rcases h with h | ⟨h1, h2⟩
    · exact absurd h hu
    · have heq : api_register_worker st body nowMs now
          = (st, Except.error ⟨400, "url 必须以 http(s):// 开头"⟩) := by
        unfold api_register_worker
        rw [if_neg hu]
        simp [h1, h2]
      rw [heq]
      exact ⟨rfl, ⟨400, "url 必须以 http(s):// 开头"⟩, rfl, rfl⟩

/-- C6 witness: registering endpoint `ftp://x` into a one-worker registry is
rejected with a 400 error and changes nothing. -/
theorem register_invalid_url_rejected_witness :
    (api_register_worker regStateBefore ⟨"ftp://x", "worker", none⟩ 7 8).1
      = regStateBefore ∧
    ∃ err : HTTPError,
      (api_register_worker regStateBefore ⟨"ftp://x", "worker", none⟩ 7 8).2
        = Except.error err ∧ err.status = 400 :=
  register_invalid_url_rejected regStateBefore ⟨"ftp://x", "worker", none⟩ 7 8
    (by decide)

/-- C9 counterexample: starting from an empty registry, two registrations that
both omit the worker id and fall in the same millisecond (`nowMs = 1700`) get
the same generated id `reg-1700`, and the second silently overwrites the
first — the final registry holds a single entry whose url is the second
registration's. -/
theorem register_generated_id_collision :
    (api_register_worker
        (api_register_worker ⟨[], 0⟩ ⟨"http://a.example", "worker", none⟩ 1700 1).1
        ⟨"http://b.example", "worker", none⟩ 1700 2).1.workers
      = [("reg-1700",
          ⟨"reg-1700", "worker", "http://b.example", 1, 2, "register"⟩)] := by
  decide

/-- C9 amended: the generated id is the time-based `reg-{nowMs}`, so it depends
only on the millisecond clock reading: two id-less registrations with the same
reading receive the same id, and after the first has succeeded the second
overwrites it in place — the registry gains no entry. -/
theorem register_generated_id_time_based (b1 b2 : RegisterIn) (tm : Nat)
    (h1 : pyStrip (b1.id.getD "") = "") (h2 : pyStrip (b2.id.getD "") = "")
    (st st1 : ApiState) (w1 : Worker) (t1 t2 : Nat)
    (hreg : api_register_worker st b1 tm t1 = (st1, Except.ok w1)) :
    register_wid b1.id tm = "reg-" ++ Nat.repr tm ∧
    register_wid b2.id tm = register_wid b1.id tm ∧
    ((api_register_worker st1 b2 tm t2).1).workers.length = st1.workers.length := by
  have hw1 : register_wid b1.id tm = "reg-" ++ Nat.repr tm := by
    unfold register_wid
    simp [h1]
  have hw2 : register_wid b2.id tm = "reg-" ++ Nat.repr tm := by
    unfold register_wid
    simp [h2]
  refine ⟨hw1, hw2.trans hw1.symm, ?_⟩
  -- after the first registration, the generated id is present in `st1`,
  -- so a second registration under the same id replaces rather than appends
  simp only [api_register_worker] at hreg
  split at hreg
  · simp at hreg
  · split at hreg
    · simp at hreg
    · simp only [Prod.mk.injEq, Except.ok.injEq] at hreg
      obtain ⟨hst, -⟩ := hreg
      simp only [api_register_worker]
      split
      · rfl
      · split
        · rfl
        · simp only
          have hpresent : (st1.workers.find?
              (fun p => p.1 == register_wid b2.id tm)).isSome := by
            have hget : dictGet st1.workers (register_wid b1.id tm) ≠ none := by
              rw [← hst]
              simp only
              rw [dictGet_dictSet_self]
              exact Option.some_ne_none _
            rw [hw2.trans hw1.symm]
            unfold dictGet at hget
            cases hf : st1.workers.find? (fun p => p.1 == register_wid b1.id tm) with
            | none => rw [hf] at hget; simp at hget
            | some p => simp [hf]
          unfold dictSet
          simp only [hpresent, if_true, List.length_map]

/-- C9 amended-theorem witness: with both clock readings at millisecond 1700,
the second id-less registration leaves the registry at one entry. -/
theorem register_generated_id_time_based_witness :
    register_wid (none : Option String) 1700 = "reg-" ++ Nat.repr 1700 ∧
    register_wid (none : Option String) 1700
      = register_wid (none : Option String) 1700 ∧
    ((api_register_worker
        (api_register_worker ⟨[], 0⟩ ⟨"http://a.example", "worker", none⟩ 1700 1).1
        ⟨"http://b.example", "worker", none⟩ 1700 2).1).workers.length
      = ((api_register_worker ⟨[], 0⟩
          ⟨"http://a.example", "worker", none⟩ 1700 1).1).workers.length :=
  register_generated_id_time_based ⟨"http://a.example", "worker", none⟩
    ⟨"http://b.example", "worker", none⟩ 1700 (by decide) (by decide)
    ⟨[], 0⟩
    (api_register_worker ⟨[], 0⟩ ⟨"http://a.example", "worker", none⟩ 1700 1).1
    ⟨"reg-1700", "worker", "http://a.example", 1, 1, "register"⟩ 1 2 (by decide)

/-! ## Dispatch coordinator (`api_create_task`, main.py:215) -/

/-- The JSON body of a worker response, as finely as the dispatcher inspects
it: `noData` is an unparseable body (`r.json()` raised, `data = None`),
`dict` a JSON object with its opportunistically-read `error` and `created`
fields, `nonDict` any other JSON value. -/
inductive RespData where
  | noData : RespData
  | dict : Option String → Option Int → RespData
  | nonDict : RespData
deriving Repr, DecidableEq

/-- What `httpx` did for one outbound call: delivered a response (status code
plus body), or raised (network error, timeout, connection refusal). -/
inductive CallOutcome where
  | response : Nat → RespData → CallOutcome
  | exception : String → CallOutcome
deriving Repr, DecidableEq

/-- The per-worker result dict built by `_call_worker_execute` (main.py:176). -/
structure DispatchResult where
  workerId : String
  label : String
  url : String
  ok : Bool
  status : Nat
  elapsedMs : Nat
  result : RespData
  error : Option String
deriving Repr, DecidableEq

/-- `_call_worker_execute` (main.py:176), with the network modelled by the
`outcome` argument and the elapsed-time reading by `elapsedMs`. -/
def _call_worker_execute (w : Worker) (outcome : CallOutcome)
    (elapsedMs : Nat) : DispatchResult :=
  match outcome with
  | CallOutcome.response status data =>
    let ok := decide (200 ≤ status ∧ status < 300)
    let err : Option String :=
      if ok then none
      else match data with
        | RespData.dict e _ => e
        | _ => some ("HTTP " ++ Nat.repr status)
    { workerId := w.id, label := w.label, url := w.url, ok := ok,
      status := status, elapsedMs := elapsedMs, result := data, error := err }
  | CallOutcome.exception msg =>
    { workerId := w.id, label := w.label, url := w.url, ok := false,
      status := 0, elapsedMs := elapsedMs, result := RespData.noData,
      error := some msg }

/-- main.py:260: `created_total += int(x["result"].get("created") or 0)` for
every result whose payload is a dict. -/
def created_total (per_worker : List DispatchResult) : Int :=
  per_worker.foldl (fun acc x =>
    match x.result with
    | RespData.dict _ c => acc + c.getD 0
    | _ => acc) 0

/-- The last-seen refresh of main.py:244: re-store the worker under `wid` with
`last_seen_at = now`, all other fields unchanged; skip absent ids. -/
def touch (d : List (String × Worker)) (wid : String) (now : Nat) :
    List (String × Worker) :=
  d.map (fun p => if p.1 == wid
    then (p.1, { p.2 with last_seen_at := now }) else p)

/-- One row of the `perServerAssigned` block. -/
structure AssignedEntry where
  workerId : String
  label : String
  assignedCount : Nat
deriving Repr, DecidableEq

/-- The response of `POST /api/tasks` (main.py:265); `perWorker` carries each
`DispatchResult` with its annotated `assignedCount`. -/
structure TaskReport where
  taskId : String
  name : String
  totalCount : Nat
  availableServers : Nat
  perServerAssigned : List AssignedEntry
  perWorker : List (DispatchResult × Nat)
  successServers : Nat
  failedServers : Nat
  createdTotal : Int
  totalElapsedMs : Nat
deriving Repr, DecidableEq

/-- main.py:230: the assignment plan with zero-count assignments dropped. -/
def task_assignments (count : Nat) (ws : List Worker) : List (Worker × Nat) :=
  (_distribute_evenly count ws).filter (fun wc => decide (wc.2 > 0))

/-- The detail string of the no-workers `HTTPException` (main.py:225). -/
def noWorkersDetail : String :=
  "当前没有可用 worker。请先配置 WORKERS 或调用 /api/workers/register 注册 worker 公网地址。"

/-- `api_create_task` (main.py:215). The network is modelled by `net` (the
outcome of the call to a given worker with a given assigned count) and `elap`
(its elapsed-time reading); `now` is the settlement-time clock reading of
main.py:243 and `totalElapsedMs` the wall-clock total of main.py:257. -/
def api_create_task (st : ApiState) (name0 : String) (count : Nat)
    (net : Worker → Nat → CallOutcome) (elap : Worker → Nat)
    (now totalElapsedMs : Nat) : ApiState × Except HTTPError TaskReport :=
  let name := pyStrip name0
  let ws := _get_workers_list st.workers
  if ws.isEmpty then
    (st, Except.error ⟨400, noWorkersDetail⟩)
  else
    let task_seq := st.task_seq + 1
    let task_id := "task-" ++ Nat.repr task_seq
    let assignments := task_assignments count ws
    let per_worker := assignments.map (fun wc =>
      _call_worker_execute wc.1 (net wc.1 wc.2) (elap wc.1))
    let workers' := per_worker.foldl (fun d r => touch d r.workerId now) st.workers
    let success := (per_worker.filter (fun x => x.ok)).length
    let failed := per_worker.length - success
    ({ workers := workers', task_seq := task_seq },
     Except.ok {
       taskId := task_id
       name := name
       totalCount := count
       availableServers := ws.length
       perServerAssigned := assignments.map (fun wc => ⟨wc.1.id, wc.1.label, wc.2⟩)
       perWorker := per_worker.map (fun x =>
         (x, ((assignments.find? (fun wc => wc.1.id == x.workerId)).map
            Prod.snd).getD 0))
       successServers := success
       failedServers := failed
       createdTotal := created_total per_worker
       totalElapsedMs := totalElapsedMs })

/-- Success-case characterization of `api_create_task`: the components of the
returned report and state in terms of the embedded pipeline. -/
lemma api_create_task_ok (st : ApiState) (name0 : String) (count : Nat)
    (net : Worker → Nat → CallOutcome) (elap : Worker → Nat)
    (now totalElapsedMs : Nat) (st' : ApiState) (rep : TaskReport)
    (h : api_create_task st name0 count net elap now totalElapsedMs
      = (st', Except.ok rep)) :
    rep.perWorker
      = ((task_assignments count (_get_workers_list st.workers)).map (fun wc =>
          _call_worker_execute wc.1 (net wc.1 wc.2) (elap wc.1))).map (fun x =>
        (x, (((task_assignments count (_get_workers_list st.workers)).find?
            (fun wc => wc.1.id == x.workerId)).map Prod.snd).getD 0)) ∧
    rep.createdTotal
      = created_total ((task_assignments count (_get_workers_list st.workers)).map
          (fun wc => _call_worker_execute wc.1 (net wc.1 wc.2) (elap wc.1))) ∧
    st'.workers
      = ((task_assignments count (_get_workers_list st.workers)).map (fun wc =>
          _call_worker_execute wc.1 (net wc.1 wc.2) (elap wc.1))).foldl
          (fun d r => touch d r.workerId now) st.workers ∧
    st'.task_seq = st.task_seq + 1 := by
  simp only [api_create_task] at h
  split at h
  · simp at h
  · simp only [Prod.mk.injEq, Except.ok.injEq] at h
    obtain ⟨hst, hrep⟩ := h
    subst hst
    subst hrep
    exact ⟨rfl, rfl, rfl, rfl⟩

/-- C5: requesting a task against an empty registry fails with the 400
"no workers" client error; the outcome does not depend on the network
environment (so no remote call can have been consulted) and the returned
module state — registry and task counter — is exactly the input state. -/
theorem create_task_empty_registry (st : ApiState) (h : st.workers = [])
    (name : String) (count : Nat) (net : Worker → Nat → CallOutcome)
    (elap : Worker → Nat) (now totalElapsedMs : Nat) :
    api_create_task st name count net elap now totalElapsedMs
      = (st, Except.error ⟨400, noWorkersDetail⟩) := by
  have hws : _get_workers_list st.workers = [] := by
    unfold _get_workers_list
    rw [h]
    rfl
  simp only [api_create_task, hws]
  rfl

/-- C5 witness: an empty registry yields the 400 error whatever the network
would have answered, and the state is untouched. -/
theorem create_task_empty_registry_witness :
    api_create_task ⟨[], 0⟩ "t" 3 (fun _ _ => CallOutcome.exception "boom")
        (fun _ => 0) 5 7
      = (⟨[], 0⟩, Except.error ⟨400, noWorkersDetail⟩) :=
  create_task_empty_registry ⟨[], 0⟩ rfl "t" 3
    (fun _ _ => CallOutcome.exception "boom") (fun _ => 0) 5 7

/-- C3 counterexample: a non-2xx (500) response whose JSON body is a dict
without an `error` field yields a result with `ok = false` whose `error` is
null — not the claimed `"HTTP 500"` fallback — so `error` is not present iff
`ok` is false. -/
theorem call_worker_error_counterexample :
    (_call_worker_execute sampleWorker1
        (CallOutcome.response 500 (RespData.dict none none)) 3).ok = false ∧
    (_call_worker_execute sampleWorker1
        (CallOutcome.response 500 (RespData.dict none none)) 3).error = none := by
  decide

/-- C3 amended: for a completed call, `status` echoes the code and `ok` holds
exactly for 2xx; on non-2xx the `error` field is the payload's `error` field
whenever the payload is a dict — null when that field is absent — and the
string `"HTTP {code}"` only for a non-dict or unparseable payload. A present
`error` still implies `ok = false` (never both), but `ok = false` no longer
forces a non-null `error`; a call that never completed has `ok = false`,
`status = 0` and the exception message as `error`. -/
theorem call_worker_error_spec (w : Worker) (status : Nat) (data : RespData)
    (e : Nat) (msg : String) :
    (_call_worker_execute w (CallOutcome.response status data) e).status = status ∧
    (_call_worker_execute w (CallOutcome.response status data) e).ok
      = decide (200 ≤ status ∧ status < 300) ∧
    (_call_worker_execute w (CallOutcome.response status data) e).error
      = (if 200 ≤ status ∧ status < 300 then none
         else match data with
           | RespData.dict err _ => err
           | _ => some ("HTTP " ++ Nat.repr status)) ∧
    ((_call_worker_execute w (CallOutcome.response status data) e).error.isSome
      && (_call_worker_execute w (CallOutcome.response status data) e).ok)
      = false ∧
    (_call_worker_execute w (CallOutcome.exception msg) e).ok = false ∧
    (_call_worker_execute w (CallOutcome.exception msg) e).status = 0 ∧
    (_call_worker_execute w (CallOutcome.exception msg) e).error = some msg := by
  unfold _call_worker_execute
  by_cases h2 : 200 ≤ status ∧ status < 300
  · simp [h2]
  · simp only [h2, decide_False, if_false, Bool.and_false]
    cases data <;> simp [h2]

/-- Per-worker result list produced when the lone worker answers HTTP 500 with
a dict body carrying `created = 5`. -/
def failNet : Worker → Nat → CallOutcome :=
  fun _ _ => CallOutcome.response 500 (RespData.dict none (some 5))

/-- C2 counterexample: a dispatch whose only call fails (HTTP 500) but whose
JSON body carries `created = 5` yields a report with zero successful workers
and `createdTotal = 5`; a sum restricted to `ok = true` results would be 0. -/
theorem created_total_counterexample :
    ((api_create_task ⟨[("w1", sampleWorker1)], 0⟩ "t" 1 failNet (fun _ => 0)
        9 9).2.map (fun rep => (rep.successServers, rep.createdTotal)))
      = Except.ok (0, 5) := by
  decide

/-- The contribution of one per-worker result to `created_total`. -/
def created_contrib (x : DispatchResult) : Int :=
  match x.result with
  | RespData.dict _ c => c.getD 0
  | _ => 0

lemma created_step (acc : Int) (x : DispatchResult) :
    (match x.result with
     | RespData.dict _ c => acc + c.getD 0
     | _ => acc) = acc + created_contrib x := by
  unfold created_contrib
  cases x.result <;> simp

lemma foldl_add_eq_sum (f : DispatchResult → Int) (l : List DispatchResult) :
    ∀ acc : Int, l.foldl (fun acc x => acc + f x) acc = acc + (l.map f).sum := by
  induction l with
  | nil => intro acc; simp
  | cons x l ih =>
    intro acc
    rw [List.foldl_cons, List.map_cons, List.sum_cons, ih]
    ring

lemma created_total_eq_sum (l : List DispatchResult) :
    created_total l = (l.map created_contrib).sum := by
  unfold created_total
  have hext : l.foldl (fun acc x =>
      match x.result with
      | RespData.dict _ c => acc + c.getD 0
      | _ => acc) 0 = l.foldl (fun acc x => acc + created_contrib x) 0 :=
    List.foldl_ext _ _ 0 (fun acc x _ => created_step acc x)
  rw [hext, foldl_add_eq_sum]
  ring

/-- C2 amended: in the report returned by a dispatch, `createdTotal` is the
sum of the numeric `created` field over ALL per-worker results whose payload
is a JSON dict — failed (`ok = false`) ones included; a missing `created`
field, a non-dict payload and an unparseable payload contribute 0. -/
theorem created_total_spec (st : ApiState) (name : String) (count : Nat)
    (net : Worker → Nat → CallOutcome) (elap : Worker → Nat)
    (now totalElapsedMs : Nat) (st' : ApiState) (rep : TaskReport)
    (h : api_create_task st name count net elap now totalElapsedMs
      = (st', Except.ok rep)) :
    rep.createdTotal = (rep.perWorker.map (fun x => created_contrib x.1)).sum := by
  obtain ⟨hpw, hct, -, -⟩ :=
    api_create_task_ok st name count net elap now totalElapsedMs st' rep h
  rw [hct, hpw, created_total_eq_sum]
  simp only [List.map_map]
  rfl

lemma call_worker_id (w : Worker) (o : CallOutcome) (e : Nat) :
    (_call_worker_execute w o e).workerId = w.id := by
  cases o <;> rfl

lemma foldl_touch_eq_map (now : Nat) (ids : List String) :
    ∀ d : List (String × Worker),
    ids.foldl (fun d wid => touch d wid now) d
      = d.map (fun p => if ids.contains p.1
          then (p.1, { p.2 with last_seen_at := now }) else p) := by
  induction ids with
  | nil =>
    intro d
    simp
  | cons i ids ih =>
    intro d
    rw [List.foldl_cons, ih (touch d i now)]
    unfold touch
    rw [List.map_map]
    refine List.map_congr_left fun p _ => ?_
    rcases p with ⟨pk, wk⟩
    by_cases hp : pk = i
    · cases wk
      simp [hp, List.contains_cons]
    · cases wk
      simp [hp, List.contains_cons]

/-- The called (per-worker) ids are exactly the assigned workers' ids. -/
lemma perWorker_ids (st : ApiState) (name : String) (count : Nat)
    (net : Worker → Nat → CallOutcome) (elap : Worker → Nat)
    (now totalElapsedMs : Nat) (st' : ApiState) (rep : TaskReport)
    (h : api_create_task st name count net elap now totalElapsedMs
      = (st', Except.ok rep)) :
    rep.perWorker.map (fun x => x.1.workerId)
      = (task_assignments count (_get_workers_list st.workers)).map
          (fun wc => wc.1.id) := by
  obtain ⟨hpw, -, -, -⟩ :=
    api_create_task_ok st name count net elap now totalElapsedMs st' rep h
  rw [hpw]
  simp only [List.map_map]
  exact List.map_congr_left fun wc _ => call_worker_id _ _ _

/-- C7: when a dispatch settles, the per-worker results are exactly one per
assigned (called) worker, and the registry after the call is the registry
before it with precisely the called ids re-stamped: a called id still present
keeps its id, label, endpoint, `registeredAt` and `source` and gets
`lastSeenAt = now`; a called id absent from the registry is skipped without
error; every other entry is untouched. -/
theorem dispatch_touch_spec (st : ApiState) (name : String) (count : Nat)
    (net : Worker → Nat → CallOutcome) (elap : Worker → Nat)
    (now totalElapsedMs : Nat) (st' : ApiState) (rep : TaskReport)
    (h : api_create_task st name count net elap now totalElapsedMs
      = (st', Except.ok rep)) :
    rep.perWorker.map (fun x => x.1.workerId)
      = (task_assignments count (_get_workers_list st.workers)).map
          (fun wc => wc.1.id) ∧
    st'.workers = st.workers.map (fun p =>
      if (rep.perWorker.map (fun x => x.1.workerId)).contains p.1
      then (p.1, { p.2 with last_seen_at := now })
      else p) := by
  obtain ⟨hpw, -, hwk, -⟩ :=
    api_create_task_ok st name count net elap now totalElapsedMs st' rep h
  have hids := perWorker_ids st name count net elap now totalElapsedMs st' rep h
  refine ⟨hids, ?_⟩
  rw [hwk, hids]
  rw [← List.foldl_map (fun r : DispatchResult => r.workerId)
    (fun d wid => touch d wid now)]
  rw [foldl_touch_eq_map]
  have : ((task_assignments count (_get_workers_list st.workers)).map (fun wc =>
      _call_worker_execute wc.1 (net wc.1 wc.2) (elap wc.1))).map
        (fun r => r.workerId)
      = (task_assignments count (_get_workers_list st.workers)).map
          (fun wc => wc.1.id) := by
    simp only [List.map_map]
    exact List.map_congr_left fun wc _ => call_worker_id _ _ _
  rw [this]

lemma enumFrom_map_pair2 (g : Nat → Nat) (ws : List Worker) :
    ∀ k, (List.enumFrom k ws).map (fun iw => (iw.2, g iw.1))
      = ws.zip ((List.range ws.length).map (fun i => g (k + i))) := by
  induction ws with
  | nil => intro k; rfl
  | cons w ws ih =>
    intro k
    simp only [List.enumFrom, List.map_cons, List.length_cons,
      List.range_succ_eq_map, List.map_map, Nat.add_zero, List.zip_cons_cons]
    refine congrArg (fun t => (w, g k) :: t) ?_
    rw [ih (k + 1)]
    refine congrArg _ (List.map_congr_left fun i _ => ?_)
    simp only [Function.comp_apply]
    exact congrArg g (by omega)

lemma zip_replicate_const (c : Nat) :
    ∀ (l : List Worker) (n : Nat), l.length = n →
      l.zip (List.replicate n c) = l.map (fun w => (w, c)) := by
  intro l
  induction l with
  | nil => intro n h; simp
  | cons w l ih =>
    intro n h
    cases n with
    | zero => simp at h
    | succ m =>
      simp only [List.replicate_succ, List.zip_cons_cons, List.map_cons]
      rw [ih m (by simpa using h)]

/-- Under-subscription shape of the plan: with fewer units than workers, the
first `count` workers get one unit each and the rest get zero. -/
lemma distribute_lt (count : Nat) (ws : List Worker) (hc : count < ws.length) :
    _distribute_evenly count ws
      = (ws.take count).map (fun w => (w, 1))
        ++ (ws.drop count).map (fun w => (w, 0)) := by
  have hdiv : count / ws.length = 0 := Nat.div_eq_of_lt hc
  have hmod : count % ws.length = count := Nat.mod_eq_of_lt hc
  simp only [_distribute_evenly, hdiv, hmod, Nat.zero_add, List.enum]
  rw [enumFrom_map_pair2 (fun i => if i < count then 1 else 0) ws 0]
  have hcounts : (List.range ws.length).map
      (fun i => if 0 + i < count then 1 else 0)
      = List.replicate count 1 ++ List.replicate (ws.length - count) 0 := by
    have h1 : (List.range ws.length).map (fun i => if 0 + i < count then 1 else 0)
        = (List.range ws.length).map (fun i => 0 + if i < count then 1 else 0) :=
      List.map_congr_left fun i _ => by simp
    rw [h1, range_map_counts 0 ws.length count,
      Nat.min_eq_left (Nat.le_of_lt hc)]
  rw [hcounts]
  have htake : (ws.take count).length = count := by
    rw [List.length_take]
    omega
  have hzip : ws.zip (List.replicate count 1 ++ List.replicate (ws.length - count) 0)
      = (ws.take count).zip (List.replicate count 1)
        ++ (ws.drop count).zip (List.replicate (ws.length - count) 0) := by
    have hsplit : ws = ws.take count ++ ws.drop count :=
      (List.take_append_drop count ws).symm
    calc ws.zip (List.replicate count 1 ++ List.replicate (ws.length - count) 0)
        = (ws.take count ++ ws.drop count).zip
            (List.replicate count 1 ++ List.replicate (ws.length - count) 0) := by
          rw [← hsplit]
      _ = (ws.take count).zip (List.replicate count 1)
            ++ (ws.drop count).zip (List.replicate (ws.length - count) 0) := by
          refine List.zip_append ?_
          simp [htake]
  rw [hzip]
  have hdrop : (ws.drop count).length = ws.length - count := List.length_drop count ws
  rw [zip_replicate_const 1 (ws.take count) count htake,
    zip_replicate_const 0 (ws.drop count) (ws.length - count) hdrop]

/-- C8: zero-count assignments are dropped before dispatch — every retained
assignment is strictly positive — and when `count` is less than the number of
registered workers only the first `count` workers in registry order appear in
the plan (with one unit each) and in the per-worker results. -/
theorem assignments_drop_zero (st : ApiState) (name : String) (count : Nat)
    (net : Worker → Nat → CallOutcome) (elap : Worker → Nat)
    (now totalElapsedMs : Nat) (st' : ApiState) (rep : TaskReport)
    (h : api_create_task st name count net elap now totalElapsedMs
      = (st', Except.ok rep))
    (hc : count < (_get_workers_list st.workers).length) :
    (∀ wc ∈ task_assignments count (_get_workers_list st.workers), 0 < wc.2) ∧
    task_assignments count (_get_workers_list st.workers)
      = ((_get_workers_list st.workers).take count).map (fun w => (w, 1)) ∧
    rep.perWorker.map (fun x => x.1.workerId)
      = ((_get_workers_list st.workers).take count).map Worker.id := by
  have hmem : ∀ wc ∈ task_assignments count (_get_workers_list st.workers),
      0 < wc.2 := by
    intro wc hwc
    have := List.of_mem_filter hwc
    exact of_decide_eq_true this
  have hplan : task_assignments count (_get_workers_list st.workers)
      = ((_get_workers_list st.workers).take count).map (fun w => (w, 1)) := by
    unfold task_assignments
    rw [distribute_lt count _ hc, List.filter_append]
    have hkeep : (((_get_workers_list st.workers).take count).map
        (fun w => (w, 1))).filter (fun wc => decide (wc.2 > 0))
        = ((_get_workers_list st.workers).take count).map (fun w => (w, 1)) := by
      rw [List.filter_eq_self]
      intro wc hwc
      obtain ⟨w, -, hw⟩ := List.mem_map.mp hwc
      subst hw
      rfl
    have hdroppped : (((_get_workers_list st.workers).drop count).map
        (fun w => (w, 0))).filter (fun wc => decide (wc.2 > 0)) = [] := by
      rw [List.filter_eq_nil_iff]
      intro wc hwc
      obtain ⟨w, -, hw⟩ := List.mem_map.mp hwc
      subst hw
      simp
    rw [hkeep, hdroppped, List.append_nil]
  refine ⟨hmem, hplan, ?_⟩
  have hids := perWorker_ids st name count net elap now totalElapsedMs st' rep h
  rw [hids, hplan, List.map_map]
  exact List.map_congr_left fun w _ => rfl

/-- Network environment in which every call succeeds with HTTP 200 and a dict
body carrying `created = 3`. -/
def okNet : Worker → Nat → CallOutcome :=
  fun _ _ => CallOutcome.response 200 (RespData.dict none (some 3))

/-- The per-worker result of calling `sampleWorker1` under `okNet`. -/
def okResult : DispatchResult :=
  ⟨"w1", "lab1", "http://a.example", true, 200, 0, RespData.dict none (some 3),
    none⟩

/-- Report of dispatching 1 unit to the one-worker registry under `okNet`. -/
def okReport : TaskReport :=
  ⟨"task-1", "t", 1, 1, [⟨"w1", "lab1", 1⟩], [(okResult, 1)], 1, 0, 3, 9⟩

/-- `sampleWorker1` after the post-dispatch `lastSeenAt` refresh at tick 9. -/
def touchedWorker1 : Worker :=
  ⟨"w1", "lab1", "http://a.example", 1, 9, "env"⟩

/-- Module state after that dispatch. -/
def okStateAfter : ApiState := ⟨[("w1", touchedWorker1)], 1⟩

/-- Report of dispatching 1 unit to the two-worker registry under `okNet`:
only the first worker is called. -/
def okReport2 : TaskReport :=
  ⟨"task-1", "t", 1, 2, [⟨"w1", "lab1", 1⟩], [(okResult, 1)], 1, 0, 3, 9⟩

/-- Module state after the two-worker dispatch: `w1` touched, `w2` untouched. -/
def okStateAfter2 : ApiState :=
  ⟨[("w1", touchedWorker1), ("w2", sampleWorker2)], 1⟩

/-- C2 amended-theorem witness: a successful one-worker dispatch reporting
`created = 3` has `createdTotal = 3`, the sum of the dict contributions. -/
theorem created_total_spec_witness :
    okReport.createdTotal
      = (okReport.perWorker.map (fun x => created_contrib x.1)).sum :=
  created_total_spec ⟨[("w1", sampleWorker1)], 0⟩ "t" 1 okNet (fun _ => 0) 9 9
    okStateAfter okReport (by decide)

/-- C7 witness: after the one-worker dispatch, the called id is `w1` and its
registry entry is re-stamped to `lastSeenAt = 9` with all other fields kept. -/
theorem dispatch_touch_spec_witness :
    okReport.perWorker.map (fun x => x.1.workerId)
      = (task_assignments 1 (_get_workers_list
          (⟨[("w1", sampleWorker1)], 0⟩ : ApiState).workers)).map
          (fun wc => wc.1.id) ∧
    okStateAfter.workers
      = (⟨[("w1", sampleWorker1)], 0⟩ : ApiState).workers.map (fun p =>
        if (okReport.perWorker.map (fun x => x.1.workerId)).contains p.1
        then (p.1, { p.2 with last_seen_at := 9 })
        else p) :=
  dispatch_touch_spec ⟨[("w1", sampleWorker1)], 0⟩ "t" 1 okNet (fun _ => 0) 9 9
    okStateAfter okReport (by decide)

/-- C8 witness: dispatching 1 unit to a two-worker registry assigns one unit
to the first registered worker only; the second worker receives no call and
appears in no per-worker result. -/
theorem assignments_drop_zero_witness :
    (∀ wc ∈ task_assignments 1 (_get_workers_list
        (⟨[("w1", sampleWorker1), ("w2", sampleWorker2)], 0⟩ : ApiState).workers),
      0 < wc.2) ∧
    task_assignments 1 (_get_workers_list
        (⟨[("w1", sampleWorker1), ("w2", sampleWorker2)], 0⟩ : ApiState).workers)
      = ((_get_workers_list
          (⟨[("w1", sampleWorker1), ("w2", sampleWorker2)], 0⟩
            : ApiState).workers).take 1).map (fun w => (w, 1)) ∧
    okReport2.perWorker.map (fun x => x.1.workerId)
      = ((_get_workers_list
          (⟨[("w1", sampleWorker1), ("w2", sampleWorker2)], 0⟩
            : ApiState).workers).take 1).map Worker.id :=
  assignments_drop_zero ⟨[("w1", sampleWorker1), ("w2", sampleWorker2)], 0⟩
    "t" 1 okNet (fun _ => 0) 9 9 okStateAfter2 okReport2 (by decide) (by decide)

/-! ## Worker service (worker.py) -/

/-- The `ExecuteIn` request model (worker.py:42); `count` is validated
`ge = 0` by the route layer. -/
structure ExecuteIn where
  taskId : Option String := none
  name : String
  count : Int
deriving Repr, DecidableEq

/-- The JSON returned by `_execute` (worker.py:89). -/
structure ExecResult where
  ok : Bool
  worker : String
  taskId : String
  created : Nat
  folder : String
  sampleFiles : List String
  elapsedMs : Nat
deriving Repr, DecidableEq

/-- `_safe_base_name` (worker.py:48): strip, replace filesystem-hostile
characters by `_`, cap at 80 characters, defaulting to `"task"` when empty. -/
def _safe_base_name (name : String) : String :=
  let bad : List Char := ['/', '\\', ':', '*', '?', '"', '<', '>', '|']
  let s := stripChars name.data
  let s := bad.foldl (fun acc ch => acc.map (fun c => if c == ch then '_' else c)) s
  if s.isEmpty then "task" else String.mk (s.take 80)

/-- The per-file loop of `_execute` (worker.py:69): fold the body over
`range(1, count + 1)`, tracking `created` and `sample_files`. -/
def _execute_loop (base : String) (count : Nat) : Nat × List String :=
  (List.range' 1 count).foldl
    (fun acc i =>
      (acc.1 + 1,
       if acc.2.length < 5 then acc.2 ++ [base ++ "-" ++ Nat.repr i ++ ".txt"]
       else acc.2))
    (0, [])

/-- `_execute` (worker.py:62) minus the file writes (an external side effect):
the JSON response. `folder` stands for the environment-dependent folder path
and `elapsedMs` for the timing reading. -/
def _execute (label task_id name : String) (count : Nat)
    (folder : String) (elapsedMs : Nat) : ExecResult :=
  let base := _safe_base_name name
  let res := _execute_loop base count
  { ok := true, worker := label, taskId := task_id, created := res.1,
    folder := folder, sampleFiles := res.2, elapsedMs := elapsedMs }

/-- The `POST /execute` route (worker.py:127). -/
def execute (label : String) (body : ExecuteIn) (folder : String)
    (elapsedMs : Nat) : Except HTTPError ExecResult :=
  let name := pyStrip body.name
  if name = "" then Except.error ⟨400, "name 不能为空"⟩
  else if body.count < 0 then Except.error ⟨400, "count 必须 >= 0"⟩
  else Except.ok (_execute label (body.taskId.getD "") name body.count.toNat
    folder elapsedMs)

lemma execute_loop_step (base : String) (n : Nat) :
    _execute_loop base (n + 1)
      = ((_execute_loop base n).1 + 1,
         if (_execute_loop base n).2.length < 5
         then (_execute_loop base n).2 ++ [base ++ "-" ++ Nat.repr (1 + n) ++ ".txt"]
         else (_execute_loop base n).2) := by
  unfold _execute_loop
  rw [List.range'_concat, one_mul, List.foldl_append, List.foldl_cons,
    List.foldl_nil]

lemma execute_loop_spec (base : String) (count : Nat) :
    (_execute_loop base count).1 = count ∧
    (_execute_loop base count).2.length = min count 5 := by
  induction count with
  | zero => exact ⟨rfl, rfl⟩
  | succ n ih =>
    obtain ⟨h1, h2⟩ := ih
    rw [execute_loop_step]
    refine ⟨by simp [h1], ?_⟩
    by_cases hn : n < 5
    · rw [if_pos (by rw [h2]; omega), List.length_append, h2]
      simp only [List.length_cons, List.length_nil]
      omega
    · rw [if_neg (by rw [h2]; omega), h2]
      omega

/-- C10: an execute request whose name is non-empty after trimming and whose
count is `≥ 0` succeeds: the response has `ok = true`, its numeric `created`
field equals exactly the requested count (one file per unit), and
`sampleFiles` lists at most 5 filenames. -/
theorem execute_creates_count (label : String) (body : ExecuteIn)
    (folder : String) (elapsedMs : Nat)
    (hname : pyStrip body.name ≠ "") (hcount : 0 ≤ body.count) :
    ∃ r : ExecResult, execute label body folder elapsedMs = Except.ok r ∧
      r.ok = true ∧ (r.created : Int) = body.count ∧
      r.sampleFiles.length ≤ 5 := by
  refine ⟨_execute label (body.taskId.getD "") (pyStrip body.name)
    body.count.toNat folder elapsedMs, ?_, rfl, ?_, ?_⟩
  · unfold execute
    rw [if_neg hname, if_neg (by omega : ¬ body.count < 0)]
  · show ((_execute_loop (_safe_base_name (pyStrip body.name))
      body.count.toNat).1 : Int) = body.count
    rw [(execute_loop_spec (_safe_base_name (pyStrip body.name))
      body.count.toNat).1]
    exact Int.toNat_of_nonneg hcount
  · show (_execute_loop (_safe_base_name (pyStrip body.name))
      body.count.toNat).2.length ≤ 5
    rw [(execute_loop_spec (_safe_base_name (pyStrip body.name))
      body.count.toNat).2]
    exact Nat.min_le_right _ _

/-- C10 witness: requesting 7 files for name `" job "` succeeds with
`created = 7` and at most 5 sample filenames. -/
theorem execute_creates_count_witness :
    ∃ r : ExecResult,
      execute "mac-worker" ⟨some "t1", " job ", 7⟩ "/Users/u/Desktop/test" 2
        = Except.ok r ∧
      r.ok = true ∧ (r.created : Int) = (7 : Int) ∧ r.sampleFiles.length ≤ 5 :=
  execute_creates_count "mac-worker" ⟨some "t1", " job ", 7⟩
    "/Users/u/Desktop/test" 2 (by decide) (by decide)

end TaskDispatch
